import Mathlib

/-!
Verification of the typed markup-casting layer of the typst syntax-tree core
(`src/syntax/markup.rs`).  The casting functions and accessors are translated
directly from the source; the surrounding tree machinery (node kinds, red
view, spans, identifiers, the expression sublanguage) is not part of the
given sources and is modelled from the specification, as marked on each
definition.  Panics (`unwrap`, `expect`) are modelled as `Except.error`
carrying the panic message; expected absence is `Option.none` resp.
`Except.ok none`.
-/

namespace Typst

/-- Modelled from the spec: a source-id-qualified half-open byte range.
The field `stop` stands for the source's `end` offset. -/
structure Span where
  source : Nat
  start : Nat
  stop : Nat
deriving DecidableEq, Repr

/-- Span construction, mirroring `Span::new(source, start, end)`. -/
def Span.new (source start stop : Nat) : Span := ⟨source, start, stop⟩

/-- Payload of a unicode-escape node: the recognized character, if any, and
the stored raw escape sequence text (`UnicodeEscapeData`). -/
structure UnicodeEscapeData where
  character : Option Char
  sequence : String
deriving DecidableEq, Repr

/-- Payload of a raw node: optional language tag, pre-trimmed text,
backtick count and the block-level flag (`RawData`). -/
structure RawData where
  lang : Option String
  text : String
  backticks : Nat
  block : Bool
deriving DecidableEq, Repr

/-- Modelled from the spec: the closed node-kind taxonomy.  The kinds
consumed by `markup.rs` are kept with their payloads; the expression
sublanguage, which is out of scope, is represented by a family `ExprLike`
of kinds that the expression cast accepts, and a family `Other` of kinds
that no cast accepts. -/
inductive NodeKind where
  | Markup
  | Space (newlines : Nat)
  | Linebreak
  | Parbreak
  | Strong
  | Emph
  | Text (s : String)
  | UnicodeEscape (u : UnicodeEscapeData)
  | EnDash
  | EmDash
  | NonBreakingSpace
  | Raw (raw : RawData)
  | Heading
  | HeadingLevel (level : Nat)
  | List
  | Enum
  | EnumNumbering (numbering : Option Nat)
  | Error (pos : Nat) (message : String)
  | ExprLike (tag : Nat)
  | Other (tag : Nat)
deriving DecidableEq, Repr

/-- Modelled from the spec: a red view node.  The red wrapper of the source
computes absolute spans lazily from the green tree; for this development we
take the red node as given with its kind, its absolute span and its child
views, which is what the casting layer observes through `kind()`, `span()`
and `children()`. -/
inductive RedNode where
  | mk (kind : NodeKind) (span : Span) (children : List RedNode)

/-- The node's kind, mirroring `RedRef::kind`. -/
def RedNode.kind : RedNode → NodeKind
  | .mk k _ _ => k

/-- The node's absolute span, mirroring `RedRef::span`. -/
def RedNode.span : RedNode → Span
  | .mk _ sp _ => sp

/-- The node's child views, mirroring `RedRef::children`. -/
def RedNode.children : RedNode → List RedNode
  | .mk _ _ cs => cs

/-- Modelled from the spec: validity check of identifier text used by
`Ident::new`; the language's identifier tokens are nonempty and consist of
alphanumeric characters, hyphens and underscores. -/
def isIdent (s : String) : Bool :=
  !s.isEmpty && s.toList.all (fun c => c.isAlphanum || c = '-' || c = '_')

/-- Modelled from the spec: an identifier token with its span. -/
structure Ident where
  name : String
  span : Span
deriving DecidableEq, Repr

/-- Modelled from the spec: `Ident::new` accepts the text only when it is a
valid identifier. -/
def Ident.new (s : String) (sp : Span) : Option Ident :=
  if isIdent s then some ⟨s, sp⟩ else none

/-- Modelled from the spec: the expression sublanguage is out of scope
beyond its syntactic shape; an expression is represented by its tag. -/
structure Expr where
  tag : Nat
deriving DecidableEq, Repr

/-- Modelled from the spec: `Expr::cast_from` succeeds exactly on the
expression-sublanguage kinds and returns absence on every other kind. -/
def Expr.cast_from (node : RedNode) : Option Expr :=
  match node.kind with
  | .ExprLike t => some ⟨t⟩
  | _ => none

/-- A raw block with optional syntax highlighting (struct `RawNode`). -/
structure RawNode where
  lang : Option Ident
  text : String
  block : Bool
deriving DecidableEq, Repr

/-- `impl TypedNode for RawNode::cast_from`: on a `Raw` kind, build the
materialized raw value; the language tag's span is offset from the node's
span start by the backtick count.  Any other kind is absence. -/
def RawNode.cast_from (node : RedNode) : Option RawNode :=
  match node.kind with
  | .Raw raw =>
    let span := node.span
    let start := span.start + raw.backticks
    some { block := raw.block
           lang := raw.lang.bind (fun x =>
             let span := Span.new span.source start (start + x.utf8ByteSize)
             Ident.new x span)
           text := raw.text }
  | _ => none

/-- Wrapper around a heading red node, generated by the `node!` macro
(modelled from the spec: the composite wrapper stores a cursor into the
red view). -/
structure HeadingNode where
  red : RedNode

/-- Modelled from the spec: the `node!`-generated cast checks the kind and
wraps the red node. -/
def HeadingNode.cast_from (node : RedNode) : Option HeadingNode :=
  if node.kind = NodeKind.Heading then some ⟨node⟩ else none

/-- Wrapper around a list-item red node, generated by the `node!` macro. -/
structure ListNode where
  red : RedNode

/-- Modelled from the spec: the `node!`-generated cast checks the kind and
wraps the red node. -/
def ListNode.cast_from (node : RedNode) : Option ListNode :=
  if node.kind = NodeKind.List then some ⟨node⟩ else none

/-- Wrapper around an enumeration-item red node, generated by the `node!`
macro. -/
structure EnumNode where
  red : RedNode

/-- Modelled from the spec: the `node!`-generated cast checks the kind and
wraps the red node. -/
def EnumNode.cast_from (node : RedNode) : Option EnumNode :=
  if node.kind = NodeKind.Enum then some ⟨node⟩ else none

/-- A single piece of markup (enum `MarkupNode`). -/
inductive MarkupNode where
  | Space
  | Linebreak
  | Parbreak
  | Strong
  | Emph
  | Text (s : String)
  | Raw (raw : RawNode)
  | Heading (heading : HeadingNode)
  | List (list : ListNode)
  | Enum (enum : EnumNode)
  | Expr (expr : Typst.Expr)

/-- `impl TypedNode for MarkupNode::cast_from`.  `Except.error` models the
`unwrap` panics of the `Raw`, `Heading`, `List` and `Enum` arms; `.ok none`
is the absence result (`Error` kinds and a failing expression fallthrough).
The unicode-escape fallback renders the literal form `\u{<sequence>}`. -/
def MarkupNode.cast_from (node : RedNode) : Except String (Option MarkupNode) :=
  match node.kind with
  | .Space _ => .ok (some .Space)
  | .Linebreak => .ok (some .Linebreak)
  | .Parbreak => .ok (some .Parbreak)
  | .Strong => .ok (some .Strong)
  | .Emph => .ok (some .Emph)
  | .Text s => .ok (some (.Text s))
  | .UnicodeEscape u =>
    .ok (some (.Text (match u.character with
      | some c => String.singleton c
      | none => "\\u\x7b" ++ u.sequence ++ "\x7d")))
  | .EnDash => .ok (some (.Text "\u2013"))
  | .EmDash => .ok (some (.Text "\u2014"))
  | .NonBreakingSpace => .ok (some (.Text "\u00A0"))
  | .Raw _ =>
    match RawNode.cast_from node with
    | some raw => .ok (some (.Raw raw))
    | none => .error "called Option::unwrap on a None value"
  | .Heading =>
    match HeadingNode.cast_from node with
    | some h => .ok (some (.Heading h))
    | none => .error "called Option::unwrap on a None value"
  | .List =>
    match ListNode.cast_from node with
    | some l => .ok (some (.List l))
    | none => .error "called Option::unwrap on a None value"
  | .Enum =>
    match EnumNode.cast_from node with
    | some e => .ok (some (.Enum e))
    | none => .error "called Option::unwrap on a None value"
  | .Error _ _ => .ok none
  | _ =>
    .ok (match Expr.cast_from node with
      | some e => some (.Expr e)
      | none => none)

/-- The syntactical root capable of representing a full parsed document:
`type Markup = Vec<MarkupNode>`. -/
abbrev Markup := List MarkupNode

/-- `children().filter_map(TypedNode::cast_from).collect()`: cast every
child, keep the successes in order; a panic in any child cast propagates. -/
def castMarkupChildren : List RedNode → Except String (List MarkupNode)
  | [] => .ok []
  | c :: cs =>
    match MarkupNode.cast_from c with
    | .error msg => .error msg
    | .ok r =>
      match castMarkupChildren cs with
      | .error msg => .error msg
      | .ok rest =>
        match r with
        | some m => .ok (m :: rest)
        | none => .ok rest

/-- `impl TypedNode for Markup::cast_from`: accept only the markup
container kind, then keep the children that cast as `MarkupNode`. -/
def Markup.cast_from (node : RedNode) : Except String (Option Markup) :=
  if node.kind ≠ NodeKind.Markup then
    .ok none
  else
    match castMarkupChildren node.children with
    | .error msg => .error msg
    | .ok children => .ok (some children)

/-- Modelled from the spec: `RedNode::cast_first_child`, which is not among
the given sources, returns the first child that casts to the requested type
(`children().find_map(...)`), here instantiated at `Markup`; a panic inside
an examined child's cast propagates. -/
def castFirstChild : List RedNode → Except String (Option Markup)
  | [] => .ok none
  | c :: cs =>
    match Markup.cast_from c with
    | .error msg => .error msg
    | .ok (some m) => .ok (some m)
    | .ok none => castFirstChild cs

/-- `HeadingNode::body`: the contents of the heading;
`expect("heading node is missing markup body")` on absence. -/
def HeadingNode.body (h : HeadingNode) : Except String Markup :=
  match castFirstChild h.red.children with
  | .error msg => .error msg
  | .ok (some m) => .ok m
  | .ok none => .error "heading node is missing markup body"

/-- `HeadingNode::level`: scan the children for the heading-level payload;
`expect("heading node is missing heading level")` on absence. -/
def HeadingNode.level (h : HeadingNode) : Except String Nat :=
  match h.red.children.findSome? (fun node =>
    match node.kind with
    | .HeadingLevel heading => some heading
    | _ => none) with
  | some l => .ok l
  | none => .error "heading node is missing heading level"

/-- `ListNode::body`: the contents of the list item;
`expect("list node is missing body")` on absence. -/
def ListNode.body (l : ListNode) : Except String Markup :=
  match castFirstChild l.red.children with
  | .error msg => .error msg
  | .ok (some m) => .ok m
  | .ok none => .error "list node is missing body"

/-- `EnumNode::body`: the contents of the enumeration item;
`expect("enumeration node is missing body")` on absence. -/
def EnumNode.body (e : EnumNode) : Except String Markup :=
  match castFirstChild e.red.children with
  | .error msg => .error msg
  | .ok (some m) => .ok m
  | .ok none => .error "enumeration node is missing body"

/-- `EnumNode::number`: scan the children for the numbering payload and
return the stored optional ordinal;
`expect("enumeration node is missing number")` when no numbering-payload
child exists at all. -/
def EnumNode.number (e : EnumNode) : Except String (Option Nat) :=
  match e.red.children.findSome? (fun node =>
    match node.kind with
    | .EnumNumbering num => some num
    | _ => none) with
  | some num => .ok num
  | none => .error "enumeration node is missing number"

/-- Whether a red node is tagged as a parse error. -/
def isErrorNode (node : RedNode) : Bool :=
  match node.kind with
  | .Error _ _ => true
  | _ => false

/-- The non-panicking view of a single child cast: its successful value,
or nothing on absence (used to state which children survive the document
cast). -/
def castSuccess (c : RedNode) : Option MarkupNode :=
  match MarkupNode.cast_from c with
  | .ok r => r
  | .error _ => none

/-- The kinds explicitly recognized by `MarkupNode::cast_from` (every arm
of its match other than the fallthrough). -/
def recognizedByMarkupCast : NodeKind → Bool
  | .Space _ => true
  | .Linebreak => true
  | .Parbreak => true
  | .Strong => true
  | .Emph => true
  | .Text _ => true
  | .UnicodeEscape _ => true
  | .EnDash => true
  | .EmDash => true
  | .NonBreakingSpace => true
  | .Raw _ => true
  | .Heading => true
  | .List => true
  | .Enum => true
  | .Error _ _ => true
  | _ => false

/-! ## Helper lemmas -/

/-- `find_map` returns the image of the first element on which the scan
function fires, when every earlier element yields nothing. -/
theorem findSome_of_first {α β : Type} (f : α → Option β) (l : List α)
    (i : Nat) (hi : i < l.length) (b : β) (h : f (l.get ⟨i, hi⟩) = some b)
    (hbefore : ∀ (j : Nat) (hj : j < i), f (l.get ⟨j, Nat.lt_trans hj hi⟩) = none) :
    l.findSome? f = some b := by
  induction l generalizing i with
  | nil => exact absurd hi (Nat.not_lt_zero i)
  | cons a l ih =>
    cases i with
    | zero =>
      simp only [List.get] at h
      simp [List.findSome?, h]
    | succ i =>
      have ha : f a = none := hbefore 0 (Nat.succ_pos i)
      simp only [List.get] at h
      have htail := ih i (Nat.lt_of_succ_lt_succ hi) h
        (fun j hj => hbefore (j + 1) (Nat.succ_lt_succ hj))
      simp [List.findSome?, ha, htail]

/-- `find_map` yields nothing when the scan function fires nowhere. -/
theorem findSome_of_none {α β : Type} (f : α → Option β) (l : List α)
    (h : ∀ a ∈ l, f a = none) : l.findSome? f = none := by
  induction l with
  | nil => rfl
  | cons a l ih =>
    have ha : f a = none := h a (List.mem_cons_self a l)
    have htail := ih (fun x hx => h x (List.mem_cons_of_mem a hx))
    simp [List.findSome?, ha, htail]

/-- An error-tagged node casts to absence (the `Error` arm). -/
theorem cast_error_eq_none (c : RedNode) (he : isErrorNode c = true) :
    MarkupNode.cast_from c = .ok none := by
  rcases c with ⟨k, sp, cs⟩
  cases k <;> simp [isErrorNode, RedNode.kind] at he
  simp [MarkupNode.cast_from, RedNode.kind]

/-- The single-node cast never reaches a panic: every internal `unwrap`
runs only after the node's kind has been matched, so it succeeds. -/
theorem markupNode_cast_ne_error (n : RedNode) (msg : String) :
    MarkupNode.cast_from n ≠ .error msg := by
  rcases n with ⟨k, sp, cs⟩
  cases k <;>
    simp [MarkupNode.cast_from, RawNode.cast_from, HeadingNode.cast_from,
      ListNode.cast_from, EnumNode.cast_from, Expr.cast_from,
      RedNode.kind, RedNode.span]

/-- Casting the child sequence never reaches a panic. -/
theorem castMarkupChildren_ne_error (cs : List RedNode) :
    ∀ msg, castMarkupChildren cs ≠ .error msg := by
  induction cs with
  | nil => intro msg; simp [castMarkupChildren]
  | cons c cs ih =>
    intro msg hcontra
    rcases h : MarkupNode.cast_from c with msg' | r
    · exact markupNode_cast_ne_error c msg' h
    · rcases h2 : castMarkupChildren cs with msg' | rest
      · exact ih msg' h2
      · rw [castMarkupChildren, h, h2] at hcontra
        cases r <;> simp at hcontra

/-- The document cast never reaches a panic. -/
theorem markup_cast_ne_error (n : RedNode) (msg : String) :
    Markup.cast_from n ≠ .error msg := by
  rcases n with ⟨k, sp, cs⟩
  by_cases hk : k = NodeKind.Markup
  · subst hk
    rcases h2 : castMarkupChildren cs with msg' | rest
    · exact absurd h2 (castMarkupChildren_ne_error cs msg')
    · simp [Markup.cast_from, RedNode.kind, RedNode.children, h2]
  · simp [Markup.cast_from, RedNode.kind, hk]

/-- On a list of children each of which is error-tagged or casts
successfully, the child cast returns exactly the successes, in order, and
their number is the child count minus the error count. -/
theorem castMarkupChildren_filter (cs : List RedNode)
    (hall : ∀ c ∈ cs, isErrorNode c = true ∨
      ∃ m, MarkupNode.cast_from c = .ok (some m)) :
    castMarkupChildren cs = .ok (cs.filterMap castSuccess) ∧
    (cs.filterMap castSuccess).length =
      cs.length - cs.countP (fun c => isErrorNode c) := by
  induction cs with
  | nil => simp [castMarkupChildren]
  | cons c cs ih =>
    have hc := hall c (List.mem_cons_self c cs)
    obtain ⟨ih1, ih2⟩ := ih (fun x hx => hall x (List.mem_cons_of_mem c hx))
    have hcount := List.countP_le_length (p := fun c => isErrorNode c) (l := cs)
    rcases hc with herr | ⟨m, hm⟩
    · have hnone := cast_error_eq_none c herr
      have hfc : castSuccess c = none := by
        rw [castSuccess, hnone]
      refine ⟨?_, ?_⟩
      · simp only [List.filterMap_cons, hfc]
        simp [castMarkupChildren, hnone, ih1]
      · simp only [List.filterMap_cons, hfc, List.countP_cons, List.length_cons]
        simp only [herr, if_true]
        omega
    · have herr : isErrorNode c = false := by
        by_contra hcontra
        rw [cast_error_eq_none c (by simpa using hcontra)] at hm
        simp at hm
      have hfc : castSuccess c = some m := by
        rw [castSuccess, hm]
      refine ⟨?_, ?_⟩
      · simp only [List.filterMap_cons, hfc]
        simp [castMarkupChildren, hm, ih1]
      · simp only [List.filterMap_cons, hfc, List.countP_cons, List.length_cons]
        simp [herr]
        omega

/-- `cast_first_child` returns the cast of the first child on which the
`Markup` cast succeeds, given that every earlier child yields absence. -/
theorem castFirstChild_of_first (cs : List RedNode) (i : Nat)
    (hi : i < cs.length) (m : Markup)
    (h : Markup.cast_from (cs.get ⟨i, hi⟩) = .ok (some m))
    (hbefore : ∀ (j : Nat) (hj : j < i),
      Markup.cast_from (cs.get ⟨j, Nat.lt_trans hj hi⟩) = .ok none) :
    castFirstChild cs = .ok (some m) := by
  induction cs generalizing i with
  | nil => exact absurd hi (Nat.not_lt_zero i)
  | cons c cs ih =>
    cases i with
    | zero =>
      simp only [List.get] at h
      simp [castFirstChild, h]
    | succ i =>
      have hc : Markup.cast_from c = .ok none := hbefore 0 (Nat.succ_pos i)
      simp only [List.get] at h
      have htail := ih i (Nat.lt_of_succ_lt_succ hi) h
        (fun j hj => hbefore (j + 1) (Nat.succ_lt_succ hj))
      simp [castFirstChild, hc, htail]

/-- `cast_first_child` yields absence when every child's `Markup` cast
yields absence. -/
theorem castFirstChild_of_none (cs : List RedNode)
    (h : ∀ c ∈ cs, Markup.cast_from c = .ok none) :
    castFirstChild cs = .ok none := by
  induction cs with
  | nil => rfl
  | cons c cs ih =>
    have hc := h c (List.mem_cons_self c cs)
    have htail := ih (fun x hx => h x (List.mem_cons_of_mem c hx))
    simp [castFirstChild, hc, htail]

/-! ## Claim theorems -/

/-- C9: casting a whitespace node as a `MarkupNode` ignores the stored
newline count: every `Space(n)` node casts to `Some(MarkupNode::Space)`,
so two whitespace nodes differing only in newline count cast equally. -/
theorem space_cast_ignores_newlines (a b : Nat) (sp : Span) (cs : List RedNode) :
    MarkupNode.cast_from (RedNode.mk (NodeKind.Space a) sp cs) = .ok (some .Space) ∧
    MarkupNode.cast_from (RedNode.mk (NodeKind.Space a) sp cs) =
      MarkupNode.cast_from (RedNode.mk (NodeKind.Space b) sp cs) :=
  ⟨rfl, rfl⟩

/-- C10: the normalized dash and space kinds surface as plain text: an
en-dash node casts to `Text` containing exactly U+2013, an em-dash node to
`Text` containing exactly U+2014, and a non-breaking-space node to `Text`
containing exactly U+00A0. -/
theorem dash_space_cast_as_text (sp : Span) (cs : List RedNode) :
    MarkupNode.cast_from (RedNode.mk NodeKind.EnDash sp cs) =
      .ok (some (.Text "\u2013")) ∧
    MarkupNode.cast_from (RedNode.mk NodeKind.EmDash sp cs) =
      .ok (some (.Text "\u2014")) ∧
    MarkupNode.cast_from (RedNode.mk NodeKind.NonBreakingSpace sp cs) =
      .ok (some (.Text "\u00A0")) :=
  ⟨rfl, rfl, rfl⟩

/-- C4: a unicode-escape node with a recognized character casts to `Text`
containing exactly that character; one with no recognized character casts
to `Text` equal to the literal fallback `\u{<sequence>}` built from the
stored raw escape sequence text. -/
theorem unicode_escape_cast (c : Char) (seq : String) (sp : Span) (cs : List RedNode) :
    MarkupNode.cast_from (RedNode.mk (NodeKind.UnicodeEscape ⟨some c, seq⟩) sp cs) =
      .ok (some (.Text (String.singleton c))) ∧
    MarkupNode.cast_from (RedNode.mk (NodeKind.UnicodeEscape ⟨none, seq⟩) sp cs) =
      .ok (some (.Text ("\\u\x7b" ++ seq ++ "\x7d"))) :=
  ⟨rfl, rfl⟩

/-- C5: casting a raw node computes the language tag's span purely from
stored data: with backtick count `b` and a tag of byte length `l`, the tag
span starts at the node's span start plus `b`, ends at start plus `b`
plus `l`, and keeps the node's source id. -/
theorem raw_lang_span_spec (raw : RawData) (sp : Span) (cs : List RedNode)
    (x : String) (hx : raw.lang = some x) (hid : isIdent x = true) :
    RawNode.cast_from (RedNode.mk (NodeKind.Raw raw) sp cs) =
      some { block := raw.block
             lang := some ⟨x, Span.new sp.source (sp.start + raw.backticks)
               (sp.start + raw.backticks + x.utf8ByteSize)⟩
             text := raw.text } := by
  simp [RawNode.cast_from, RedNode.kind, RedNode.span, hx, Ident.new, hid]

/-- Witness for C5: a concrete raw node with 3 backticks, language tag
`rust` (4 bytes) and span starting at 10: the tag's span is `[13, 17)`. -/
theorem raw_lang_span_spec_w :
    RawNode.cast_from (RedNode.mk
        (NodeKind.Raw ⟨some "rust", "fn main", 3, true⟩) (Span.new 0 10 30) []) =
      some { block := true
             lang := some ⟨"rust", Span.new 0 13 17⟩
             text := "fn main" } := by
  have h := raw_lang_span_spec ⟨some "rust", "fn main", 3, true⟩
    (Span.new 0 10 30) [] "rust" rfl (by decide)
  simpa using h

/-- C7: a node whose kind is none of the kinds explicitly recognized by the
markup cast falls through to the expression cast wrapped as `Expr`, and the
result is absence exactly when the expression cast fails. -/
theorem markup_fallthrough_spec (n : RedNode)
    (h : recognizedByMarkupCast n.kind = false) :
    MarkupNode.cast_from n = .ok ((Expr.cast_from n).map MarkupNode.Expr) ∧
    (MarkupNode.cast_from n = .ok none ↔ Expr.cast_from n = none) := by
  rcases n with ⟨k, sp, cs⟩
  cases k <;> simp [recognizedByMarkupCast, RedNode.kind] at h <;>
    simp [MarkupNode.cast_from, Expr.cast_from, RedNode.kind, Option.map]

/-- Witness for C7: a concrete expression-sublanguage node casts as a
wrapped expression, and a concrete unrecognized non-expression node casts
to absence. -/
theorem markup_fallthrough_spec_w :
    MarkupNode.cast_from (RedNode.mk (NodeKind.ExprLike 7) (Span.new 0 0 1) []) =
      .ok ((Expr.cast_from (RedNode.mk (NodeKind.ExprLike 7) (Span.new 0 0 1) [])).map
        MarkupNode.Expr) ∧
    (MarkupNode.cast_from (RedNode.mk (NodeKind.Other 3) (Span.new 0 0 1) []) = .ok none ↔
      Expr.cast_from (RedNode.mk (NodeKind.Other 3) (Span.new 0 0 1) []) = none) :=
  ⟨(markup_fallthrough_spec (RedNode.mk (NodeKind.ExprLike 7) (Span.new 0 0 1) []) rfl).1,
   (markup_fallthrough_spec (RedNode.mk (NodeKind.Other 3) (Span.new 0 0 1) []) rfl).2⟩

/-- C2: for a node of kind `Heading`, `level()` scans the children for the
heading-level payload kind and returns the stored payload value exactly
(the first such payload, with no payload among the earlier children); if no
heading-level payload child exists, the operation halts with the fatal
assertion instead of returning a degraded value. -/
theorem heading_level_spec :
    (∀ (sp : Span) (cs : List RedNode) (i : Nat) (hi : i < cs.length) (l : Nat),
      (cs.get ⟨i, hi⟩).kind = NodeKind.HeadingLevel l →
      (∀ (j : Nat) (hj : j < i), ∀ v : Nat,
        (cs.get ⟨j, Nat.lt_trans hj hi⟩).kind ≠ NodeKind.HeadingLevel v) →
      HeadingNode.level ⟨RedNode.mk NodeKind.Heading sp cs⟩ = .ok l) ∧
    (∀ (sp : Span) (cs : List RedNode),
      (∀ c ∈ cs, ∀ v : Nat, c.kind ≠ NodeKind.HeadingLevel v) →
      HeadingNode.level ⟨RedNode.mk NodeKind.Heading sp cs⟩ =
        .error "heading node is missing heading level") := by
  constructor
  · intro sp cs i hi l h hbefore
    have hfind : cs.findSome? (fun node =>
        match node.kind with
        | .HeadingLevel heading => some heading
        | _ => none) = some l := by
      apply findSome_of_first _ cs i hi l
      · simp only [h]
      · intro j hj
        have := hbefore j hj
        rcases hk : (cs.get ⟨j, Nat.lt_trans hj hi⟩).kind <;> simp
        exact absurd hk (this _)
    simp [HeadingNode.level, RedNode.children, hfind]
  · intro sp cs hall
    have hfind : cs.findSome? (fun node =>
        match node.kind with
        | .HeadingLevel heading => some heading
        | _ => none) = none := by
      apply findSome_of_none
      intro c hc
      have := hall c hc
      rcases hk : c.kind <;> simp
      exact absurd hk (this _)
    simp [HeadingNode.level, RedNode.children, hfind]

/-- Witness for C2: a heading node whose second child carries level 2 has
`level() = 2`; a heading node with no level-payload child hits the fatal
assertion. -/
theorem heading_level_spec_w :
    HeadingNode.level ⟨RedNode.mk NodeKind.Heading (Span.new 0 0 8)
      [RedNode.mk (NodeKind.Space 0) (Span.new 0 0 1) [],
       RedNode.mk (NodeKind.HeadingLevel 2) (Span.new 0 1 3) []]⟩ = .ok 2 ∧
    HeadingNode.level ⟨RedNode.mk NodeKind.Heading (Span.new 0 0 8)
      [RedNode.mk (NodeKind.Space 0) (Span.new 0 0 1) []]⟩ =
      .error "heading node is missing heading level" := by
  constructor
  · exact heading_level_spec.1 (Span.new 0 0 8) _ 1 (by decide) 2 rfl
      (by intro j hj v
          interval_cases j
          simp [RedNode.kind, List.get])
  · exact heading_level_spec.2 (Span.new 0 0 8) _
      (by intro c hc v
          simp only [List.mem_singleton] at hc
          subst hc
          simp [RedNode.kind])

/-- C3 counterexample: an enumeration node whose numbering-payload child is
absent does not yield a non-fatal result: `number()` halts with the fatal
assertion `enumeration node is missing number`. -/
theorem enum_number_panics_on_missing_payload :
    EnumNode.number ⟨RedNode.mk NodeKind.Enum (Span.new 0 0 5)
      [RedNode.mk NodeKind.Markup (Span.new 0 0 5) []]⟩ =
      .error "enumeration node is missing number" := rfl

/-- C3 (amended): for an enumeration node, `number()` returns the stored
optional explicit ordinal of the first numbering-payload child (`None`
meaning auto-numbered); when the numbering-payload child itself is absent,
the operation halts with the fatal assertion rather than yielding a
non-fatal result. -/
theorem enum_number_spec :
    (∀ (sp : Span) (cs : List RedNode) (i : Nat) (hi : i < cs.length)
      (num : Option Nat),
      (cs.get ⟨i, hi⟩).kind = NodeKind.EnumNumbering num →
      (∀ (j : Nat) (hj : j < i), ∀ v : Option Nat,
        (cs.get ⟨j, Nat.lt_trans hj hi⟩).kind ≠ NodeKind.EnumNumbering v) →
      EnumNode.number ⟨RedNode.mk NodeKind.Enum sp cs⟩ = .ok num) ∧
    (∀ (sp : Span) (cs : List RedNode),
      (∀ c ∈ cs, ∀ v : Option Nat, c.kind ≠ NodeKind.EnumNumbering v) →
      EnumNode.number ⟨RedNode.mk NodeKind.Enum sp cs⟩ =
        .error "enumeration node is missing number") := by
  constructor
  · intro sp cs i hi num h hbefore
    have hfind : cs.findSome? (fun node =>
        match node.kind with
        | .EnumNumbering n => some n
        | _ => none) = some num := by
      apply findSome_of_first _ cs i hi num
      · simp only [h]
      · intro j hj
        have := hbefore j hj
        rcases hk : (cs.get ⟨j, Nat.lt_trans hj hi⟩).kind <;> simp
        exact absurd hk (this _)
    simp [EnumNode.number, RedNode.children, hfind]
  · intro sp cs hall
    have hfind : cs.findSome? (fun node =>
        match node.kind with
        | .EnumNumbering n => some n
        | _ => none) = none := by
      apply findSome_of_none
      intro c hc
      have := hall c hc
      rcases hk : c.kind <;> simp
      exact absurd hk (this _)
    simp [EnumNode.number, RedNode.children, hfind]

/-- Witness for C3: an enumeration node with explicit numbering payload 4
has `number() = some 4`, one with an empty numbering payload has
`number() = none` non-fatally, and one with no payload child halts. -/
theorem enum_number_spec_w :
    EnumNode.number ⟨RedNode.mk NodeKind.Enum (Span.new 0 0 5)
      [RedNode.mk (NodeKind.EnumNumbering (some 4)) (Span.new 0 0 2) []]⟩ =
      .ok (some 4) ∧
    EnumNode.number ⟨RedNode.mk NodeKind.Enum (Span.new 0 0 5)
      [RedNode.mk (NodeKind.EnumNumbering none) (Span.new 0 0 2) []]⟩ =
      .ok none ∧
    EnumNode.number ⟨RedNode.mk NodeKind.Enum (Span.new 0 0 5) []⟩ =
      .error "enumeration node is missing number" := by
  refine ⟨?_, ?_, ?_⟩
  · exact enum_number_spec.1 (Span.new 0 0 5) _ 0 (by decide) (some 4) rfl
      (fun j hj => absurd hj (Nat.not_lt_zero j))
  · exact enum_number_spec.1 (Span.new 0 0 5) _ 0 (by decide) none rfl
      (fun j hj => absurd hj (Nat.not_lt_zero j))
  · exact enum_number_spec.2 (Span.new 0 0 5) []
      (by intro c hc v; cases hc)

/-- C1: casting a red node to `Markup` returns absence for any node whose
kind is not the markup container; for a markup-container node with K
children of which M are error-tagged (and all others cast successfully as
`MarkupNode`), it returns the sequence of the K − M successful child casts
in their original relative order. -/
theorem markup_cast_spec (k : NodeKind) (sp : Span) (cs : List RedNode)
    (hall : ∀ c ∈ cs, isErrorNode c = true ∨
      ∃ m, MarkupNode.cast_from c = .ok (some m)) :
    (k ≠ NodeKind.Markup → Markup.cast_from (RedNode.mk k sp cs) = .ok none) ∧
    ∃ ms : Markup,
      Markup.cast_from (RedNode.mk NodeKind.Markup sp cs) = .ok (some ms) ∧
      ms = cs.filterMap castSuccess ∧
      ms.length = cs.length - cs.countP (fun c => isErrorNode c) := by
  obtain ⟨h1, h2⟩ := castMarkupChildren_filter cs hall
  refine ⟨fun hk => by simp [Markup.cast_from, RedNode.kind, hk],
    cs.filterMap castSuccess, ?_, rfl, h2⟩
  simp [Markup.cast_from, RedNode.kind, RedNode.children, h1]

/-- Witness for C1: a markup container with three children, one of them
error-tagged, casts to the two surviving children in order. -/
theorem markup_cast_spec_w :
    Markup.cast_from (RedNode.mk NodeKind.Markup (Span.new 0 0 3)
      [RedNode.mk (NodeKind.Text "a") (Span.new 0 0 1) [],
       RedNode.mk (NodeKind.Error 1 "oops") (Span.new 0 1 2) [],
       RedNode.mk (NodeKind.Space 1) (Span.new 0 2 3) []]) =
      .ok (some [MarkupNode.Text "a", MarkupNode.Space]) ∧
    Markup.cast_from (RedNode.mk (NodeKind.Text "a") (Span.new 0 0 3)
      [RedNode.mk (NodeKind.Text "a") (Span.new 0 0 1) []]) = .ok none := by
  have h := markup_cast_spec (NodeKind.Text "a") (Span.new 0 0 3)
    [RedNode.mk (NodeKind.Text "a") (Span.new 0 0 1) [],
     RedNode.mk (NodeKind.Error 1 "oops") (Span.new 0 1 2) [],
     RedNode.mk (NodeKind.Space 1) (Span.new 0 2 3) []]
    (by intro c hc
        simp only [List.mem_cons, List.not_mem_nil, or_false] at hc
        rcases hc with rfl | rfl | rfl
        · exact Or.inr ⟨MarkupNode.Text "a", rfl⟩
        · exact Or.inl rfl
        · exact Or.inr ⟨MarkupNode.Space, rfl⟩)
  have h2 := markup_cast_spec (NodeKind.Text "a") (Span.new 0 0 3)
    [RedNode.mk (NodeKind.Text "a") (Span.new 0 0 1) []]
    (by intro c hc
        simp only [List.mem_singleton] at hc
        subst hc
        exact Or.inr ⟨MarkupNode.Text "a", rfl⟩)
  obtain ⟨-, ms, hcast, hms, -⟩ := h
  refine ⟨?_, h2.1 (by simp)⟩
  rw [hcast, hms]
  rfl

/-- C6: for a `Heading`, `List` or `Enum` node, `body()` returns the
nested `Markup` sequence obtained by casting the first child that casts to
`Markup` (earlier children yielding absence); when no child casts, the
operation halts with the fatal assertion instead of returning a
recoverable absence. -/
theorem body_first_child_spec :
    (∀ (sp : Span) (cs : List RedNode) (i : Nat) (hi : i < cs.length)
      (m : Markup),
      Markup.cast_from (cs.get ⟨i, hi⟩) = .ok (some m) →
      (∀ (j : Nat) (hj : j < i),
        Markup.cast_from (cs.get ⟨j, Nat.lt_trans hj hi⟩) = .ok none) →
      HeadingNode.body ⟨RedNode.mk NodeKind.Heading sp cs⟩ = .ok m ∧
      ListNode.body ⟨RedNode.mk NodeKind.List sp cs⟩ = .ok m ∧
      EnumNode.body ⟨RedNode.mk NodeKind.Enum sp cs⟩ = .ok m) ∧
    (∀ (sp : Span) (cs : List RedNode),
      (∀ c ∈ cs, Markup.cast_from c = .ok none) →
      HeadingNode.body ⟨RedNode.mk NodeKind.Heading sp cs⟩ =
        .error "heading node is missing markup body" ∧
      ListNode.body ⟨RedNode.mk NodeKind.List sp cs⟩ =
        .error "list node is missing body" ∧
      EnumNode.body ⟨RedNode.mk NodeKind.Enum sp cs⟩ =
        .error "enumeration node is missing body") := by
  constructor
  · intro sp cs i hi m h hbefore
    have hfc := castFirstChild_of_first cs i hi m h hbefore
    exact ⟨by simp [HeadingNode.body, RedNode.children, hfc],
      by simp [ListNode.body, RedNode.children, hfc],
      by simp [EnumNode.body, RedNode.children, hfc]⟩
  · intro sp cs hall
    have hfc := castFirstChild_of_none cs hall
    exact ⟨by simp [HeadingNode.body, RedNode.children, hfc],
      by simp [ListNode.body, RedNode.children, hfc],
      by simp [EnumNode.body, RedNode.children, hfc]⟩

/-- Witness for C6: with children `[level payload, markup body]`, all three
`body()` accessors return the body's cast (the level payload does not cast
to `Markup`); with no children, all three hit their fatal assertions. -/
theorem body_first_child_spec_w :
    HeadingNode.body ⟨RedNode.mk NodeKind.Heading (Span.new 0 0 9)
      [RedNode.mk (NodeKind.HeadingLevel 1) (Span.new 0 0 2) [],
       RedNode.mk NodeKind.Markup (Span.new 0 2 7)
         [RedNode.mk (NodeKind.Text "Intro") (Span.new 0 2 7) []]]⟩ =
      .ok [MarkupNode.Text "Intro"] ∧
    ListNode.body ⟨RedNode.mk NodeKind.List (Span.new 0 0 9)
      [RedNode.mk (NodeKind.HeadingLevel 1) (Span.new 0 0 2) [],
       RedNode.mk NodeKind.Markup (Span.new 0 2 7)
         [RedNode.mk (NodeKind.Text "Intro") (Span.new 0 2 7) []]]⟩ =
      .ok [MarkupNode.Text "Intro"] ∧
    EnumNode.body ⟨RedNode.mk NodeKind.Enum (Span.new 0 0 9) []⟩ =
      .error "enumeration node is missing body" := by
  have h1 := (body_first_child_spec.1 (Span.new 0 0 9)
    [RedNode.mk (NodeKind.HeadingLevel 1) (Span.new 0 0 2) [],
     RedNode.mk NodeKind.Markup (Span.new 0 2 7)
       [RedNode.mk (NodeKind.Text "Intro") (Span.new 0 2 7) []]]
    1 (by decide) [MarkupNode.Text "Intro"] rfl
    (by intro j hj
        interval_cases j
        rfl))
  have h2 := body_first_child_spec.2 (Span.new 0 0 9) []
    (by intro c hc; cases hc)
  exact ⟨h1.1, h1.2.1, h2.2.2⟩

/-- C8: every casting operation is total on kind mismatch: a non-matching
kind gives absence, never a fatal error, and the internal unwraps inside
`MarkupNode::cast_from` never fail, so neither the single-node cast nor
the document cast can reach a panic. -/
theorem cast_total_spec :
    (∀ n : RedNode, n.kind ≠ NodeKind.Markup → Markup.cast_from n = .ok none) ∧
    (∀ n : RedNode, (∀ raw : RawData, n.kind ≠ NodeKind.Raw raw) →
      RawNode.cast_from n = none) ∧
    (∀ (n : RedNode) (msg : String), MarkupNode.cast_from n ≠ .error msg) ∧
    (∀ (n : RedNode) (msg : String), Markup.cast_from n ≠ .error msg) := by
  refine ⟨?_, ?_, markupNode_cast_ne_error, markup_cast_ne_error⟩
  · intro n hk
    simp [Markup.cast_from, hk]
  · intro n hk
    rcases n with ⟨k, sp, cs⟩
    cases k <;> first
      | exact absurd rfl (hk _)
      | simp [RawNode.cast_from, RedNode.kind]

/-- Witness for C8: concrete kind mismatches give absence, and the casts of
a concrete heading and of a concrete document are not errors. -/
theorem cast_total_spec_w :
    Markup.cast_from (RedNode.mk (NodeKind.Text "x") (Span.new 0 0 1) []) =
      .ok none ∧
    RawNode.cast_from (RedNode.mk (NodeKind.Text "x") (Span.new 0 0 1) []) =
      none ∧
    MarkupNode.cast_from (RedNode.mk NodeKind.Heading (Span.new 0 0 1) []) ≠
      .error "boom" ∧
    Markup.cast_from (RedNode.mk NodeKind.Markup (Span.new 0 0 1) []) ≠
      .error "boom" :=
  ⟨cast_total_spec.1 _ (by simp [RedNode.kind]),
   cast_total_spec.2.1 _ (by intro raw; simp [RedNode.kind]),
   cast_total_spec.2.2.1 _ "boom",
   cast_total_spec.2.2.2 _ "boom"⟩

end Typst
